import Mathlib

/-!
Verification of the tensor-compiler tutorial notebooks.

The notebooks declare computations (row-sum reduction, vector addition,
extern CBLAS matmul with a bias stage, an add-one Python callback), apply
schedule transformations (split, bind, rfactor, compute_at), build kernels
and check the results against a NumPy reference.  The declared computations
and the lowered loop nests printed in the notebook outputs are embedded
here as Lean functions over exact rationals; floating-point values are
idealised as rationals, so an exact equality proved here entails the
allclose tolerance checks of the notebooks.
-/

/- ---------------------------------------------------------------------
Row-sum reduction (tutorial-notebooks-asd/reduction.ipynb).

Declared computation: B = tvm.compute((n,), fun i => tvm.sum(A[i, k], k))
with k a reduction axis of extent m.  NumPy reference: numpy.sum(a, axis=1).
--------------------------------------------------------------------- -/

/-- NumPy reference for the row sum: numpy.sum(a, axis=1), i.e. the sum of
row i of the n-by-m matrix A, idealised over exact rationals. -/
def rowSum (m : Nat) (A : Nat → Nat → ℚ) (i : Nat) : ℚ :=
  ∑ k in Finset.range m, A i k

/-- Extent of the outer reduction loop after s[B].split(reduce_axis, factor=16):
the lowered IR prints `for (k.outer, 0, ((m + 15)/16))`. -/
def qceil16 (m : Nat) : Nat := (m + 15) / 16

/-- One cell of the rfactor intermediate B.rf, read off the lowered IR printed
by the notebook:
`B.rf[ki*n + i] += A[ki + i*m + ko*16]` guarded by `ki < (m - ko*16)`,
iterated over `k.outer` of extent (m+15)/16.  Subtraction is the machine's
truncated natural subtraction, as in the printed IR. -/
def rfPartial (m : Nat) (A : Nat → Nat → ℚ) (ki i : Nat) : ℚ :=
  ∑ ko in Finset.range (qceil16 m), if ki < m - ko * 16 then A i (ko * 16 + ki) else 0

/-- The rewritten B after rfactor: `B[i] += B.rf[i + ki*n]` over k.inner.v of
extent 16 (from the lowered IR `produce B` block). -/
def rfB (m : Nat) (A : Nat → Nat → ℚ) (i : Nat) : ℚ :=
  ∑ ki in Finset.range 16, rfPartial m A ki i

/-- A i k guarded by the bound k < m; used to reindex the split reduction. -/
def guardedA (m : Nat) (A : Nat → Nat → ℚ) (i k : Nat) : ℚ :=
  if k < m then A i k else 0

/- ---------------------------------------------------------------------
The built CUDA kernel for the row sum (printed source in reduction.ipynb,
cell 9).  Each thread (bx, ty, tx) accumulates a partial sum B_rf over
k_outer, stores it into the shared buffer red_buf0, a four-step
warp-synchronous tree (strides 8, 4, 2, 1, active lanes tx < 8) reduces the
16 lane values of a row, and lane tx = 0 writes B[bx*32 + ty] under the
guard bx*32 < n - ty.
--------------------------------------------------------------------- -/

/-- Per-thread partial sum B_rf of the generated kernel:
`B_rf[0] += A[((bx*32 + ty)*m + tx) + k_outer*16]` guarded by
`bx*32 < n - ty` and `tx < m - k_outer*16`, over k_outer of extent (15+m)/16. -/
def threadPartial (n m : Nat) (A : Nat → Nat → ℚ) (bx ty tx : Nat) : ℚ :=
  ∑ ko in Finset.range ((15 + m) / 16),
    if bx * 32 < n - ty ∧ tx < m - ko * 16 then A (bx * 32 + ty) (ko * 16 + tx) else 0

/-- Row slice of the shared buffer red_buf0 right after the store
`red_buf0[ty*16 + tx] = (bx*32 < n - ty) ? B_rf[0] : 0`. -/
def sharedInit (n m : Nat) (A : Nat → Nat → ℚ) (bx ty : Nat) (tx : Nat) : ℚ :=
  if bx * 32 < n - ty then threadPartial n m A bx ty tx else 0

/-- One warp-synchronous step of the in-kernel reduction tree: lanes tx < 8
add the value at distance `stride`; all reads happen before all writes
(lockstep SIMD semantics of the volatile shared-memory reduction). -/
def redStep (stride : Nat) (buf : Nat → ℚ) (tx : Nat) : ℚ :=
  if tx < 8 then buf tx + buf (tx + stride) else buf tx

/-- Lane 0 of a row after the four tree steps with strides 8, 4, 2, 1; this
is the value stored into B by the thread with tx = 0. -/
def redResult (buf : Nat → ℚ) : ℚ :=
  redStep 1 (redStep 2 (redStep 4 (redStep 8 buf))) 0

/-- Output array written by the built kernel fcuda: B[i] receives the tree
result of the block/row pair (i / 32, i % 32) exactly when a thread with
bx*32 + ty = i exists in the launched grid (bx below the blockIdx.x extent
(n+31)/32) and its store guard bx*32 < n - ty holds; other entries keep
the initial contents b0 of the output buffer. -/
def fcudaB (n m : Nat) (A : Nat → Nat → ℚ) (b0 : Nat → ℚ) (i : Nat) : ℚ :=
  if i / 32 < (n + 31) / 32 ∧ (i / 32) * 32 < n - i % 32 then
    redResult (sharedInit n m A (i / 32) (i % 32))
  else b0 i

/- ---------------------------------------------------------------------
Vector addition (Get Started notebook, src/optimize).

Declared computation: C = tvm.compute(A.shape, fun i => A[i] + B[i]);
schedule: bx, tx = s[C].split(C.op.axis[0], factor=64), bound to
blockIdx.x / threadIdx.x.  The notebook gives the equivalent C code:
for bx in [0, ceil(n/64)): for tx in [0, 64):
  i = bx*64 + tx; if i < n then C[i] = A[i] + B[i].
We execute that loop nest over an explicit output buffer.
--------------------------------------------------------------------- -/

/-- The guarded store `if (i < n) C[i] = A[i] + B[i]` of the split schedule. -/
def storeAdd (n : Nat) (a b : Nat → ℚ) (i : Nat) (c : Nat → ℚ) : Nat → ℚ :=
  if i < n then Function.update c i (a i + b i) else c

/-- Inner loop of the split vector add: iterations tx = 0, …, t-1 of block bx,
each performing the guarded store at index bx*64 + tx, in increasing order. -/
def vaddTxLoop (n : Nat) (a b : Nat → ℚ) (bx : Nat) : Nat → (Nat → ℚ) → (Nat → ℚ)
  | 0, c => c
  | t + 1, c => storeAdd n a b (bx * 64 + t) (vaddTxLoop n a b bx t c)

/-- Outer loop of the split vector add: blocks bx = 0, …, q-1, each running the
full 64-iteration inner loop. -/
def vaddBxLoop (n : Nat) (a b : Nat → ℚ) : Nat → (Nat → ℚ) → (Nat → ℚ)
  | 0, c => c
  | q + 1, c => vaddTxLoop n a b q 64 (vaddBxLoop n a b q c)

/-- The scheduled vector-add kernel: the outer loop runs over
ceil(n/64) = (n+63)/64 blocks, starting from the initial contents c0 of the
output buffer. -/
def vaddKernel (n : Nat) (a b c0 : Nat → ℚ) : Nat → ℚ :=
  vaddBxLoop n a b ((n + 63) / 64) c0

/-- The built kernel fadd of the Get Started notebook, invoked at n = 1024. -/
def fadd (a b c0 : Nat → ℚ) : Nat → ℚ := vaddKernel 1024 a b c0

/- ---------------------------------------------------------------------
Extern CBLAS matmul with a schedulable bias stage (External Tensor
Functions notebook, src/unnamed/part_000).

C = tvm.extern((n, m), [A, B], call_packed "tvm.contrib.cblas.matmul"),
D = tvm.compute(C.shape, fun i j => C[i, j] + bias), with n = 1024,
l = 128, m = 235; invoked with bias = 10.0 and checked against
numpy.dot(a, b) + 10.
--------------------------------------------------------------------- -/

/-- Modelled from the spec: the extern stage C calls the external library
routine tvm.contrib.cblas.matmul, whose implementation is not part of this
repository; the spec describes the check as a matrix-multiplication
comparison against NumPy, so the extern call is modelled as the exact
matrix product of the l-inner-dimension operands. -/
def cblas_matmul (l : Nat) (a b : Nat → Nat → ℚ) (i j : Nat) : ℚ :=
  ∑ k in Finset.range l, a i k * b k j

/-- The schedulable bias stage declared in the notebook:
D = tvm.compute(C.shape, fun i j => C[i, j] + bias). -/
def Dstage (l : Nat) (a b : Nat → Nat → ℚ) (bias : ℚ) (i j : Nat) : ℚ :=
  cblas_matmul l a b i j + bias

/-- NumPy reference of the notebook check: numpy.dot(a, b) + 10. -/
def npDotPlusTen (l : Nat) (a b : Nat → Nat → ℚ) (i j : Nat) : ℚ :=
  (∑ k in Finset.range l, a i k * b k j) + 10

/- ---------------------------------------------------------------------
Python callback hooked as an extern stage (src/unnamed/part_000).

@tvm.register_func("tvm.contrib.my_tvm_addone")
def my_tvm_addone(x, y): tvm.nd.array(x.asnumpy() + 1).copyto(y)

B = tvm.extern(A.shape, [A], call_packed "tvm.contrib.my_tvm_addone"),
built as f and invoked as f(a, b) with 1024-element arrays.
--------------------------------------------------------------------- -/

/-- The registered callback: writes x + 1 (elementwise over the whole
array) into the output argument. -/
def my_tvm_addone (x : Nat → ℚ) : Nat → ℚ := fun i => x i + 1

/-- Output buffer b after running the built extern stage f(a, b): the
extern stage hands the input array to the callback and the callback
overwrites the output array with its result. -/
def addoneRun (a : Nat → ℚ) : Nat → ℚ := my_tvm_addone a

/- ---------------------------------------------------------------------
Re-splitting an already split axis (Get Started notebook, src/optimize).

The cell `bx, tx = s[C].split(C.op.axis[0], factor=64)`, repeated after an
earlier identical split, terminates with a TVMError raised by the external
framework; the notebook has no try/except around it.
--------------------------------------------------------------------- -/

/-- Modelled from the spec: tvm.schedule.Stage.split is implemented in the
external framework (src/schedule/schedule_lang.cc of TVM, not part of this
repository); modelled from the TVMError trace recorded verbatim in the
notebook output: splitting an iter var that has already been split raises
"Operate on iter var ... that has already been splitted", otherwise the
iter var is marked split and two fresh iter vars are returned. -/
structure SchedState where
  splitDone : List Nat
  fresh : Nat
deriving DecidableEq, Repr

def splitErrorMsg : String := "Operate on iter var that has already been splitted"

def stageSplit (st : SchedState) (v : Nat) : Except String (SchedState × Nat × Nat) :=
  if v ∈ st.splitDone then Except.error splitErrorMsg
  else Except.ok (⟨v :: st.splitDone, st.fresh + 2⟩, st.fresh, st.fresh + 1)

/-- The notebook's two split cells on the same axis of stage C, run in
sequence; the notebook applies no recovery to the second call, so its
outcome is whatever stageSplit returns, propagated verbatim. -/
def notebookResplit (axis0 : Nat) (st0 : SchedState) :
    Except String (SchedState × Nat × Nat) :=
  match stageSplit st0 axis0 with
  | Except.error e => Except.error e
  | Except.ok (st1, _, _) => stageSplit st1 axis0

/- ---------------------------------------------------------------------
Pipeline step order (all notebooks).

Each kernel pipeline is transcribed as its sequence of cell-level events:
tensor declarations, schedule transformations of the pipeline's stages,
tvm.build calls, invocations of the built kernel, and numeric checks
against the NumPy reference.
--------------------------------------------------------------------- -/

inductive Step
  | declare
  | schedule
  | build
  | run
  | check
deriving DecidableEq, Repr

/-- No schedule transformation occurs at a position after a build. -/
def noSchedAfterBuildAux : Bool → List Step → Bool
  | _, [] => true
  | _, Step.build :: rest => noSchedAfterBuildAux true rest
  | seen, Step.schedule :: rest => (!seen) && noSchedAfterBuildAux seen rest
  | seen, _ :: rest => noSchedAfterBuildAux seen rest

/-- Every kernel invocation is preceded by a build. -/
def runAfterBuildAux : Bool → List Step → Bool
  | _, [] => true
  | _, Step.build :: rest => runAfterBuildAux true rest
  | seen, Step.run :: rest => seen && runAfterBuildAux seen rest
  | seen, _ :: rest => runAfterBuildAux seen rest

/-- Every numeric comparison is preceded by a kernel invocation. -/
def checkAfterRunAux : Bool → List Step → Bool
  | _, [] => true
  | _, Step.run :: rest => checkAfterRunAux true rest
  | seen, Step.check :: rest => seen && checkAfterRunAux seen rest
  | seen, _ :: rest => checkAfterRunAux seen rest

/-- Every schedule transformation is preceded by a declaration. -/
def schedAfterDeclareAux : Bool → List Step → Bool
  | _, [] => true
  | _, Step.declare :: rest => schedAfterDeclareAux true rest
  | seen, Step.schedule :: rest => seen && schedAfterDeclareAux seen rest
  | seen, _ :: rest => schedAfterDeclareAux seen rest

/-- The declare → schedule → build → run → check discipline of the claim. -/
def pipelineOK (l : List Step) : Bool :=
  schedAfterDeclareAux false l && noSchedAfterBuildAux false l &&
    runAfterBuildAux false l && checkAfterRunAux false l

/-- reduction.ipynb, kernel fcuda: declare A/k/B; split ko/ki, split xo/xi,
bind, bind; fresh schedule with split and rfactor; split, bind, bind,
bind reduce axis, compute_at, set_store_predicate; tvm.build; fcuda(a, b);
assert_allclose against numpy.sum(a, axis=1). -/
def reductionPipeline : List Step :=
  [Step.declare] ++ List.replicate 12 Step.schedule ++
    [Step.build, Step.run, Step.check]

/-- Get Started notebook, kernel fadd: declare A/B/C; the successful split,
the repeated split attempt, two binds; tvm.build; fadd(a, b, c);
assert_allclose against a + b. -/
def getStartedPipeline : List Step :=
  [Step.declare] ++ List.replicate 4 Step.schedule ++
    [Step.build, Step.run, Step.check]

/-- External Tensor Functions notebook, function f: declare A/B/C/D with a
default schedule (no transformations); tvm.build; f(a, b, d, bb);
assert_allclose against numpy.dot(a, b) + 10. -/
def externPipeline : List Step :=
  [Step.declare, Step.build, Step.run, Step.check]

/-- External Tensor Functions notebook, add-one callback: declare A/B with a
default schedule; tvm.build; f(a, b); assert_allclose against a + 1. -/
def addonePipeline : List Step :=
  [Step.declare, Step.build, Step.run, Step.check]

/-- Intrinsics notebook, direct __expf kernel: declare, split, bind, bind,
build (no run or check cell). -/
def intrinDirectPipeline : List Step :=
  [Step.declare] ++ List.replicate 3 Step.schedule ++ [Step.build]

/-- Intrinsics notebook, tvm.exp kernel: declare, split, bind, bind, then
three builds (cuda, opencl, cuda again after the rule registration, which
touches no stage of the schedule). -/
def intrinExpPipeline : List Step :=
  [Step.declare] ++ List.replicate 3 Step.schedule ++
    [Step.build, Step.build, Step.build]

/-- Intrinsics notebook, mylog kernel: declare, split, bind, bind, build. -/
def intrinMylogPipeline : List Step :=
  [Step.declare] ++ List.replicate 3 Step.schedule ++ [Step.build]

/-- TensorCore notebook, test_gemm for layout NN: declare A/B/C; the cache
stages, storage_align, splits, reorders, binds, compute_ats, fuses,
vectorizes and the tensor_core pragma (44 stage transformations); tvm.build;
func(a_tvm, b_tvm, c_tvm); assert_allclose against numpy.dot. -/
def tensorcorePipeline : List Step :=
  [Step.declare] ++ List.replicate 44 Step.schedule ++
    [Step.build, Step.run, Step.check]

def allPipelines : List (List Step) :=
  [reductionPipeline, getStartedPipeline, externPipeline, addonePipeline,
    intrinDirectPipeline, intrinExpPipeline, intrinMylogPipeline,
    tensorcorePipeline]

/- ---------------------------------------------------------------------
Archive extraction helper (Compile TFLite Models notebook,
src/unnamed/part_002).

def extract(path):
    if path.endswith("tgz") or path.endswith("gz"): ... extractall ...
    else: raise RuntimeError('Could not decompress the file: ' + path)
--------------------------------------------------------------------- -/

def tgzChars : List Char := "tgz".toList

def gzChars : List Char := "gz".toList

/-- Python str.endswith on character lists. -/
def endswith (s suf : List Char) : Bool := List.isSuffixOf suf s

def decompressErr (path : List Char) : String :=
  String.mk ("Could not decompress the file: ".toList ++ path)

/-- The extract helper: Except.ok models the tarfile extraction path,
Except.error the raised RuntimeError. -/
def extract (path : List Char) : Except String Unit :=
  if endswith path tgzChars || endswith path gzChars then Except.ok ()
  else Except.error (decompressErr path)

/- ---------------------------------------------------------------------
Custom intrinsic lowering rules (Intrinsics notebook, src/unnamed/part_001).

def my_cuda_math_rule(op):
    if op.dtype == "float32": return call_pure_extern("float32", "%sf" % op.name, op.args[0])
    elif op.dtype == "float64": return call_pure_extern("float32", op.name, op.args[0])
    else: return op

def my_cuda_mylog_rule(op):
    if op.dtype == "float32": return call_pure_extern("float32", "logf", op.args[0])
    elif op.dtype == "float64": return call_pure_extern("float64", "log", op.args[0])
    else: return op
--------------------------------------------------------------------- -/

/-- An intrinsic Call expression: its dtype, intrinsic name, and argument
expressions (arguments are opaque to the rules, represented by ids). -/
structure IntrinCall where
  dtype : String
  name : String
  args : List Nat
deriving DecidableEq, Repr

/-- Result of a lowering rule: either the original call returned unchanged,
or a tvm.call_pure_extern node built from a dtype, a function name and the
first argument. -/
inductive LoweredExpr
  | call (op : IntrinCall)
  | externCall (dtype : String) (fname : String) (arg : Nat)
deriving DecidableEq, Repr

def f32 : String := "float32"

def f64 : String := "float64"

def fLit : String := "f"

def logfLit : String := "logf"

def logLit : String := "log"

def i8Lit : String := "int8"

def expLit : String := "exp"

def my_cuda_math_rule (op : IntrinCall) : LoweredExpr :=
  if op.dtype = f32 then LoweredExpr.externCall f32 (op.name ++ fLit) (op.args.headD 0)
  else if op.dtype = f64 then LoweredExpr.externCall f32 op.name (op.args.headD 0)
  else LoweredExpr.call op

def my_cuda_mylog_rule (op : IntrinCall) : LoweredExpr :=
  if op.dtype = f32 then LoweredExpr.externCall f32 logfLit (op.args.headD 0)
  else if op.dtype = f64 then LoweredExpr.externCall f64 logLit (op.args.headD 0)
  else LoweredExpr.call op

/- ---------------------------------------------------------------------
Layout alteration callback (Relay Pass Infra notebook, src/unnamed/part_003).

@relay.op.register_alter_op_layout("nn.conv2d", level=101)
def alter_conv2d(attrs, inputs, tinfos):
    data, weight = inputs
    new_attrs = dict(attrs)
    new_attrs['data_layout'] = 'NCHW16c'
    return relay.nn.conv2d(data, weight, **new_attrs)
--------------------------------------------------------------------- -/

/-- Lookup in an attribute dictionary (first binding of the key). -/
def dictGet : List (String × String) → String → Option String
  | [], _ => none
  | (k, v) :: rest, key => if k = key then some v else dictGet rest key

/-- Python dict assignment d[key] = val: replace the existing binding of key
in place, or append a new binding. -/
def dictSet : List (String × String) → String → String → List (String × String)
  | [], key, val => [(key, val)]
  | (k, v) :: rest, key, val =>
    if k = key then (key, val) :: rest else (k, v) :: dictSet rest key val

/-- The conv2d call rebuilt by the callback: data and weight inputs plus the
keyword attribute dictionary. -/
structure Conv2dCall where
  data : Nat
  weight : Nat
  attrs : List (String × String)
deriving DecidableEq, Repr

def dataLayoutKey : String := "data_layout"

def nchw16cVal : String := "NCHW16c"

def alter_conv2d (attrs : List (String × String)) (data weight : Nat) : Conv2dCall :=
  ⟨data, weight, dictSet attrs dataLayoutKey nchw16cVal⟩

def stridesKey : String := "strides"

def oneOneVal : String := "(1, 1)"

/- ---------------------------------------------------------------------
Helper theorems.
--------------------------------------------------------------------- -/

theorem rfPartial_eq_guarded (m : Nat) (A : Nat → Nat → ℚ) (ki i : Nat) :
    rfPartial m A ki i = ∑ ko in Finset.range (qceil16 m), guardedA m A i (ko * 16 + ki) := by
  unfold rfPartial guardedA
  refine Finset.sum_congr rfl (fun ko _ => ?_)
  have h : (ki < m - ko * 16) ↔ (ko * 16 + ki < m) := by omega
  simp [h]

theorem sum_blocks_eq_sum_range (q m : Nat) (A : Nat → Nat → ℚ) (i : Nat) :
    ∑ ko in Finset.range q, ∑ ki in Finset.range 16, guardedA m A i (ko * 16 + ki) =
      ∑ k in Finset.range (q * 16), guardedA m A i k := by
  induction q with
  | zero => simp
  | succ q ih =>
    have h16 : (q + 1) * 16 = q * 16 + 16 := by ring
    rw [Finset.sum_range_succ, ih, h16, Finset.sum_range_add]

theorem sum_guarded_eq_rowSum (q m : Nat) (A : Nat → Nat → ℚ) (i : Nat) (h : m ≤ q) :
    ∑ k in Finset.range q, guardedA m A i k = rowSum m A i := by
  rw [rowSum, ← Finset.sum_subset (Finset.range_subset.mpr h)
    (fun k _ hk => by
      have : ¬ k < m := by simpa using hk
      simp [guardedA, this])]
  exact Finset.sum_congr rfl (fun k hk => by
    have : k < m := Finset.mem_range.mp hk
    simp [guardedA, this])

/-- The rfactor rewrite preserves the row sum: summing the factored partial
sums B.rf(ki, i) over ki in [0, 16) gives the direct sum of row i. -/
theorem rfB_eq_rowSum (m : Nat) (A : Nat → Nat → ℚ) (i : Nat) :
    rfB m A i = rowSum m A i := by
  unfold rfB
  calc ∑ ki in Finset.range 16, rfPartial m A ki i
      = ∑ ki in Finset.range 16, ∑ ko in Finset.range (qceil16 m),
          guardedA m A i (ko * 16 + ki) := by
        exact Finset.sum_congr rfl (fun ki _ => rfPartial_eq_guarded m A ki i)
    _ = ∑ ko in Finset.range (qceil16 m), ∑ ki in Finset.range 16,
          guardedA m A i (ko * 16 + ki) := Finset.sum_comm
    _ = ∑ k in Finset.range (qceil16 m * 16), guardedA m A i k :=
        sum_blocks_eq_sum_range (qceil16 m) m A i
    _ = rowSum m A i := sum_guarded_eq_rowSum _ m A i (by unfold qceil16; omega)

/-- The four-step warp tree over a 16-lane row computes the sum of the lanes. -/
theorem redResult_eq_sum (buf : Nat → ℚ) :
    redResult buf = ∑ tx in Finset.range 16, buf tx := by
  norm_num [redResult, redStep, Finset.sum_range_succ]
  ring

theorem storeAdd_ne (n : Nat) (a b : Nat → ℚ) (i j : Nat) (c : Nat → ℚ)
    (h : j ≠ i) : storeAdd n a b i c j = c j := by
  unfold storeAdd
  by_cases hi : i < n
  · simp [hi, Function.update_noteq h]
  · simp [hi]

theorem vaddTxLoop_untouched (n : Nat) (a b : Nat → ℚ) (bx t : Nat) (c : Nat → ℚ)
    (j : Nat) (h : ∀ tx, tx < t → j ≠ bx * 64 + tx) :
    vaddTxLoop n a b bx t c j = c j := by
  induction t with
  | zero => rfl
  | succ t ih =>
    rw [vaddTxLoop, storeAdd_ne n a b _ j _ (h t (Nat.lt_succ_self t))]
    exact ih (fun tx htx => h tx (Nat.lt_succ_of_lt htx))

theorem vaddTxLoop_written (n : Nat) (a b : Nat → ℚ) (bx t tx0 : Nat) (c : Nat → ℚ)
    (htx : tx0 < t) (hn : bx * 64 + tx0 < n) :
    vaddTxLoop n a b bx t c (bx * 64 + tx0) = a (bx * 64 + tx0) + b (bx * 64 + tx0) := by
  induction t with
  | zero => omega
  | succ t ih =>
    rw [vaddTxLoop]
    by_cases he : tx0 = t
    · subst he
      unfold storeAdd
      simp [hn]
    · have hlt : tx0 < t := by omega
      rw [storeAdd_ne n a b _ _ _ (by omega)]
      exact ih hlt

theorem vaddBxLoop_written (n : Nat) (a b : Nat → ℚ) (q bx0 tx0 : Nat) (c : Nat → ℚ)
    (hbx : bx0 < q) (htx : tx0 < 64) (hn : bx0 * 64 + tx0 < n) :
    vaddBxLoop n a b q c (bx0 * 64 + tx0) = a (bx0 * 64 + tx0) + b (bx0 * 64 + tx0) := by
  induction q with
  | zero => omega
  | succ q ih =>
    rw [vaddBxLoop]
    by_cases he : bx0 = q
    · subst he
      exact vaddTxLoop_written n a b bx0 64 tx0 _ htx hn
    · have hlt : bx0 < q := by omega
      rw [vaddTxLoop_untouched n a b q 64 _ _ (fun tx _ => by omega)]
      exact ih hlt

/-- The split vector-add loop nest computes C[i] = A[i] + B[i] at every
index i < n, regardless of the initial contents of the output buffer. -/
theorem vaddKernel_spec (n : Nat) (a b c0 : Nat → ℚ) (i : Nat) (h : i < n) :
    vaddKernel n a b c0 i = a i + b i := by
  have hdecomp : (i / 64) * 64 + i % 64 = i := by omega
  have hbx : i / 64 < (n + 63) / 64 := by omega
  have htx : i % 64 < 64 := by omega
  have := vaddBxLoop_written n a b ((n + 63) / 64) (i / 64) (i % 64) c0 hbx htx
    (by omega)
  rw [hdecomp] at this
  exact this

theorem tgz_imp_gz (p : List Char) (h : endswith p tgzChars = true) :
    endswith p gzChars = true := by
  unfold endswith at *
  rw [List.isSuffixOf_iff_suffix] at *
  exact List.IsSuffix.trans (by decide) h

theorem dictGet_set_same (l : List (String × String)) (key val : String) :
    dictGet (dictSet l key val) key = some val := by
  induction l with
  | nil => simp [dictSet, dictGet]
  | cons hd tl ih =>
    by_cases h : hd.1 = key
    · simp [dictSet, dictGet, h]
    · simp [dictSet, dictGet, h, ih]

theorem dictGet_set_other (l : List (String × String)) (key val k : String)
    (hk : k ≠ key) :
    dictGet (dictSet l key val) k = dictGet l k := by
  have hk2 : ¬ key = k := fun h => hk h.symm
  induction l with
  | nil => simp [dictSet, dictGet, hk2]
  | cons hd tl ih =>
    by_cases h : hd.1 = key
    · simp [dictSet, dictGet, h, hk2]
    · simp [dictSet, dictGet, h, ih]

/- ---------------------------------------------------------------------
Claim theorems.
--------------------------------------------------------------------- -/

/-- Claim C1: after the reduction-axis split by factor 16, the rfactor on
the inner reduction axis, the thread bindings and the compute_at, the
built kernel fcuda run on any 128-by-128 input with a zero-initialised
128-entry output buffer yields the NumPy reference numpy.sum(a, axis=1):
over the exact rational idealisation the two are equal, which entails the
rtol = 1e-4 allclose check of the notebook. -/
theorem rowsum_kernel_matches_numpy (A : Nat → Nat → ℚ) (b0 : Nat → ℚ)
    (i : Nat) (h : i < 128) : fcudaB 128 128 A b0 i = rowSum 128 A i := by
  have hg1 : i / 32 < (128 + 31) / 32 := by omega
  have hg2 : (i / 32) * 32 < 128 - i % 32 := by omega
  have hdecomp : (i / 32) * 32 + i % 32 = i := by omega
  unfold fcudaB
  rw [if_pos ⟨hg1, hg2⟩, redResult_eq_sum]
  have hrow : ∀ tx, sharedInit 128 128 A (i / 32) (i % 32) tx = rfPartial 128 A tx i := by
    intro tx
    unfold sharedInit threadPartial rfPartial qceil16
    rw [if_pos hg2]
    norm_num
    refine Finset.sum_congr rfl (fun ko _ => ?_)
    rw [hdecomp]
    simp [hg2]
  calc ∑ tx in Finset.range 16, sharedInit 128 128 A (i / 32) (i % 32) tx
      = ∑ tx in Finset.range 16, rfPartial 128 A tx i :=
        Finset.sum_congr rfl (fun tx _ => hrow tx)
    _ = rfB 128 A i := rfl
    _ = rowSum 128 A i := rfB_eq_rowSum 128 A i

theorem rowsum_kernel_matches_numpy_witness :
    (5 : Nat) < 128 ∧
      fcudaB 128 128 (fun _ _ => 1) (fun _ => 0) 5 = rowSum 128 (fun _ _ => 1) 5 :=
  ⟨by decide, rowsum_kernel_matches_numpy (fun _ _ => 1) (fun _ => 0) 5 (by decide)⟩

/-- Claim C2: the scheduled computations produce the same mathematical
result as the unscheduled declarations: the rfactor rewrite of the row sum
(first B.rf(ki, i) over ko with ko*16 + ki < m, then the sum of B.rf(ki, i)
over ki in [0, 16)) equals the direct row sum for every input and every
extent m, and the factor-64 split of the vector-add axis, with the guard
i < n, computes C[i] = A[i] + B[i] for every i in [0, n). -/
theorem schedule_preserves_semantics :
    (∀ (m : Nat) (A : Nat → Nat → ℚ) (i : Nat), rfB m A i = rowSum m A i) ∧
      (∀ (n : Nat) (a b c0 : Nat → ℚ) (i : Nat), i < n →
        vaddKernel n a b c0 i = a i + b i) :=
  ⟨rfB_eq_rowSum, vaddKernel_spec⟩

theorem schedule_preserves_semantics_witness :
    (3 : Nat) < 100 ∧
      vaddKernel 100 (fun _ => 1) (fun _ => 2) (fun _ => 0) 3 = 1 + 2 :=
  ⟨by decide,
    schedule_preserves_semantics.2 100 (fun _ => 1) (fun _ => 2) (fun _ => 0) 3
      (by decide)⟩

/-- Claim C3: the extern CBLAS matmul stage (inner extent l = 128) followed
by the bias stage D(i, j) = C(i, j) + bias, invoked with bias = 10, yields
numpy.dot(a, b) + 10 for every pair of inputs: over the exact rational
idealisation the two are equal, which entails the rtol = 1e-5 check. -/
theorem extern_cblas_bias_matches_numpy (a b : Nat → Nat → ℚ) (i j : Nat) :
    Dstage 128 a b 10 i j = npDotPlusTen 128 a b i j := rfl

/-- Claim C4: the built vector-addition kernel fadd on inputs of length
n = 1024 and a zero-initialised (here: arbitrary) output buffer computes
the elementwise sum a + b at every index, which entails the
assert_allclose check at default tolerance. -/
theorem fadd_matches_numpy (a b c0 : Nat → ℚ) (i : Nat) (h : i < 1024) :
    fadd a b c0 i = a i + b i :=
  vaddKernel_spec 1024 a b c0 i h

theorem fadd_matches_numpy_witness :
    (7 : Nat) < 1024 ∧
      fadd (fun _ => 1) (fun _ => 2) (fun _ => 0) 7 = 1 + 2 :=
  ⟨by decide, fadd_matches_numpy (fun _ => 1) (fun _ => 2) (fun _ => 0) 7 (by decide)⟩

/-- Claim C5: repeating s[C].split(C.op.axis[0], factor=64) on an axis that
the first call already split makes the second call raise the framework's
TVMError diagnostic, and the notebook propagates it verbatim with no
recovery, retry or translation. -/
theorem resplit_raises_tvmerror (axis0 : Nat) (st0 : SchedState)
    (h : axis0 ∉ st0.splitDone) :
    notebookResplit axis0 st0 = Except.error splitErrorMsg := by
  unfold notebookResplit stageSplit
  rw [if_neg h]
  simp

theorem resplit_raises_tvmerror_witness :
    (0 : Nat) ∉ (SchedState.mk [] 0).splitDone ∧
      notebookResplit 0 (SchedState.mk [] 0) = Except.error splitErrorMsg :=
  ⟨by decide, resplit_raises_tvmerror 0 (SchedState.mk [] 0) (by decide)⟩

/-- Claim C6: the registered callback my_tvm_addone writes x + 1 into its
output argument, so running the built extern stage f(a, b) makes b equal
a + 1 elementwise over the 1024-element input; over the exact rational
idealisation the two are equal, entailing the rtol = 1e-5 check. -/
theorem addone_extern_matches_numpy (a : Nat → ℚ) (i : Nat) (_h : i < 1024) :
    addoneRun a i = a i + 1 := rfl

theorem addone_extern_matches_numpy_witness :
    (9 : Nat) < 1024 ∧ addoneRun (fun _ => 4) 9 = 4 + 1 :=
  ⟨by decide, addone_extern_matches_numpy (fun _ => 4) 9 (by decide)⟩

/-- Claim C7: every kernel pipeline of the notebooks follows the order
declare → schedule → build → run → check: no schedule transformation after
the stage's build, kernel invocations only after a build, and the NumPy
comparison only after the invocation. -/
theorem pipelines_follow_declare_schedule_build_run_check :
    allPipelines.all pipelineOK = true := by decide

/-- Claim C8: extract(path) raises RuntimeError exactly when path does not
end with "gz"; the explicit "tgz" branch is redundant because every string
ending in "tgz" also ends in "gz". -/
theorem extract_raises_iff_not_gz (path : List Char) :
    extract path = Except.error (decompressErr path) ↔
      endswith path gzChars = false := by
  unfold extract
  cases hgz : endswith path gzChars with
  | true => simp [hgz]
  | false =>
    have htgz : endswith path tgzChars = false := by
      cases h2 : endswith path tgzChars with
      | true => exact absurd (tgz_imp_gz path h2) (by simp [hgz])
      | false => rfl
    simp [hgz, htgz]

/-- Claim C9: on a call whose dtype is neither "float32" nor "float64",
both custom lowering rules return the call itself unchanged. -/
theorem untranslatable_dtype_rules_are_identity (op : IntrinCall)
    (h32 : op.dtype ≠ f32) (h64 : op.dtype ≠ f64) :
    my_cuda_math_rule op = LoweredExpr.call op ∧
      my_cuda_mylog_rule op = LoweredExpr.call op := by
  constructor <;> simp [my_cuda_math_rule, my_cuda_mylog_rule, h32, h64]

theorem untranslatable_dtype_rules_are_identity_witness :
    (IntrinCall.mk i8Lit expLit [0]).dtype ≠ f32 ∧
      (IntrinCall.mk i8Lit expLit [0]).dtype ≠ f64 ∧
      my_cuda_math_rule (IntrinCall.mk i8Lit expLit [0]) =
        LoweredExpr.call (IntrinCall.mk i8Lit expLit [0]) :=
  ⟨by decide, by decide,
    (untranslatable_dtype_rules_are_identity (IntrinCall.mk i8Lit expLit [0])
      (by decide) (by decide)).1⟩

/-- Claim C10: alter_conv2d returns a conv2d call on the same data and
weight inputs whose attributes equal the incoming ones except that
data_layout is set to 'NCHW16c'; every other attribute is unchanged. -/
theorem alter_conv2d_only_changes_data_layout
    (attrs : List (String × String)) (data weight : Nat) :
    (alter_conv2d attrs data weight).data = data ∧
      (alter_conv2d attrs data weight).weight = weight ∧
      dictGet (alter_conv2d attrs data weight).attrs dataLayoutKey = some nchw16cVal ∧
      ∀ k, k ≠ dataLayoutKey →
        dictGet (alter_conv2d attrs data weight).attrs k = dictGet attrs k :=
  ⟨rfl, rfl, dictGet_set_same attrs dataLayoutKey nchw16cVal,
    fun k hk => dictGet_set_other attrs dataLayoutKey nchw16cVal k hk⟩

theorem alter_conv2d_only_changes_data_layout_witness :
    stridesKey ≠ dataLayoutKey ∧
      dictGet (alter_conv2d [(stridesKey, oneOneVal)] 0 1).attrs stridesKey =
        dictGet [(stridesKey, oneOneVal)] stridesKey :=
  ⟨by decide,
    (alter_conv2d_only_changes_data_layout [(stridesKey, oneOneVal)] 0 1).2.2.2
      stridesKey (by decide)⟩
